import Mathlib

/-!
Verification of the reconciliation-engine core of the `discadian2` repository:
the rate-limited remote client (`src/api/earthmc.py`), the batch query handler
(`src/api/batch.py`), the TTL cache (`src/api/cache.py`), the snapshot
normalizer (`src/utils/data_processor.py`), the diff helpers
(`src/utils/helpers.py`) and the periodic scanner (`src/cogs/scanner.py`).

The Python code is shallowly embedded: JSON payloads become an inductive
`Json` type, instants become integers (seconds; the code's `datetime` values
carry sub-second precision, but every duration the code computes — the
60-second window, `Retry-After`, `2 ** attempt` backoff — is an integer and
no claim depends on finer granularity), fallible code returns `Except`, and
the network/database environment is passed in explicitly (response lists,
lookup functions).  Definitions mirror the source line by line; comments cite
the file and lines they embed.
-/

namespace Discadian

/-! ## JSON values

Payloads parsed from remote-service responses (`response.json()`), and the
dynamic values the scanner passes around.  Numbers are modelled as `Int`:
every numeric value the claims touch (`Retry-After`, thresholds, population,
balance as used by `detect_milestone : int × int × List[int]`) is declared
`int` in the source. -/

inductive Json where
  | null
  | bool (b : Bool)
  | str (s : String)
  | num (n : Int)
  | arr (items : List Json)
  | obj (fields : List (String × Json))
  deriving Repr

mutual

/-- Structural equality on JSON values, modelling Python `==`/`!=` at the
sites the scanner compares cached and current values (scalar UUID strings,
booleans, `None`).  Python dict equality is key-order-insensitive, but the
code only ever compares scalars and `None` with `!=`, where this coincides. -/
def Json.beq : Json → Json → Bool
  | .null, .null => true
  | .bool a, .bool b => a == b
  | .str a, .str b => a == b
  | .num a, .num b => a == b
  | .arr a, .arr b => Json.beqList a b
  | .obj a, .obj b => Json.beqFields a b
  | _, _ => false

def Json.beqList : List Json → List Json → Bool
  | [], [] => true
  | x :: xs, y :: ys => Json.beq x y && Json.beqList xs ys
  | _, _ => false

def Json.beqFields : List (String × Json) → List (String × Json) → Bool
  | [], [] => true
  | (k1, v1) :: xs, (k2, v2) :: ys => k1 == k2 && Json.beq v1 v2 && Json.beqFields xs ys
  | _, _ => false

end

/-- Boolean equality on `Option Json` (Python `x != y` where either side may
be `None`). -/
def optBeq : Option Json → Option Json → Bool
  | none, none => true
  | some a, some b => Json.beq a b
  | _, _ => false

/-- Python truthiness of a JSON value (`if x:`): `None`, `False`, `0`, `""`,
`[]`, `{}` are falsy. -/
def pyTruthy : Json → Bool
  | .null => false
  | .bool b => b
  | .str s => !s.isEmpty
  | .num n => n != 0
  | .arr xs => !xs.isEmpty
  | .obj kvs => !kvs.isEmpty

/-- Embedding of `d.get(k)` on a Python dict modelled as an association list (first match;
Python dict keys are unique, so this is exact).  `none` is Python `None`. -/
def dictGet (fields : List (String × Json)) (k : String) : Option Json :=
  (fields.find? (fun kv => kv.1 == k)).map (fun kv => kv.2)

/-- Embedding of `d.get(k, default)` on a Python dict. -/
def dictGetD (fields : List (String × Json)) (k : String) (d : Json) : Json :=
  (dictGet fields k).getD d

/-! ## `src/utils/helpers.py` -/

/-- Embedding of `detect_milestone` (src/utils/helpers.py lines 60-78): iterate the
thresholds in ascending order (`sorted(thresholds)`) and return the first
with `old_value < threshold <= new_value`, else `None`. -/
def detect_milestone (old_value new_value : Int) (thresholds : List Int) : Option Int :=
  (thresholds.mergeSort (· ≤ ·)).find? (fun threshold =>
    old_value < threshold && threshold ≤ new_value)

/-- Embedding of `compare_lists` (src/utils/helpers.py lines 81-97): set difference both
ways.  The Python function materialises the sets back into lists in
unspecified (hash) order; the result is modelled as the pair of finsets
(`added`, `removed`). -/
def compare_lists (old_list new_list : List String) : Finset String × Finset String :=
  (new_list.toFinset \ old_list.toFinset, old_list.toFinset \ new_list.toFinset)

/-- Chunking `lst[i:i+n] for i in range(0, len(lst), n)`, as performed inline
by the batched query functions (slices of size `n`; the final slice may be
shorter).  The fuel argument (`lst.length`) only serves termination; `n = 0`
would raise `ValueError` in Python and is never used (the code always chunks
by 100). -/
def chunkAux {α : Type} (n : ℕ) : ℕ → List α → List (List α)
  | 0, _ => []
  | _, [] => []
  | fuel + 1, l => l.take n :: chunkAux n fuel (l.drop n)

def chunkList {α : Type} (l : List α) (n : ℕ) : List (List α) :=
  chunkAux n l.length l

/-! ## Rate limiter (`EarthMCAPI._wait_for_rate_limit`, src/api/earthmc.py lines 38-54)

The limiter state is the list `self.request_times` of admission instants in
append order.  One admission is: prune entries 60 s or older, sleep
`60 - (now - oldest)` seconds if the pruned window is at the limit, then
append the current instant (`self.request_times.append(datetime.now())`,
line 71 of `_request`). -/

/-- Embedding of `self.request_times = [t for t in self.request_times if now - t < timedelta(minutes=1)]`
(lines 43-46). -/
def pruneTimes (times : List Int) (now : Int) : List Int :=
  times.filter (fun t => now - t < 60)

/-- The earliest instant at which the admission timestamp may be appended,
given the state and the instant `now` at which `_wait_for_rate_limit` ran:
if the pruned window has at least `rate_limit` entries the code sleeps
`wait = 60 - (now - oldest)` seconds when `wait > 0` (lines 49-54), so
execution resumes no earlier than `max now (oldest + 60)`; otherwise it
proceeds at `now`.  (`oldest` is `self.request_times[0]`; with
`rate_limit = 0` and an empty list the Python would raise `IndexError`, so
that branch is degenerate and every theorem assumes `0 < rate_limit`.) -/
def releaseTime (rate_limit : ℕ) (times : List Int) (now : Int) : Int :=
  if rate_limit ≤ (pruneTimes times now).length then
    match pruneTimes times now with
    | [] => now
    | oldest :: _ => max now (oldest + 60)
  else now

/-- One admission: prune at the call instant `now`, then append the record
instant `recT` (the `datetime.now()` of line 71, which is at or after
`releaseTime`). -/
def admissionStep (times : List Int) (now recT : Int) : List Int :=
  pruneTimes times now ++ [recT]

/-- Traces of the rate limiter: `LimiterReach rate_limit times lastCall lastRec hist`
says the state `times` is reachable by a sequence of admissions recorded at
the instants `hist`, the last call to `_wait_for_rate_limit` ran at
`lastCall` and the last timestamp was appended at `lastRec`.  A step may run
at any `now` not before the previous append, and must record at or after
`releaseTime` — exactly the suspension the code performs; the actual sleep
may overshoot, so `recT` is only bounded below. -/
inductive LimiterReach (rate_limit : ℕ) : List Int → Int → Int → List Int → Prop
  | init (t : Int) : LimiterReach rate_limit [] t t []
  | step {times lastCall lastRec hist} (now recT : Int) :
      LimiterReach rate_limit times lastCall lastRec hist →
      lastRec ≤ now →
      releaseTime rate_limit times now ≤ recT →
      LimiterReach rate_limit (admissionStep times now recT) now recT (hist ++ [recT])

/-- Number of admissions of `hist` inside the rolling 60-second window
ending at instant `t` (half-open: strictly newer than `t - 60`, at most `t`). -/
def windowCount (hist : List Int) (t : Int) : ℕ :=
  (hist.filter (fun a => t - a < 60 && a ≤ t)).length

/-! ## Remote client request loop (`EarthMCAPI._request`, src/api/earthmc.py lines 56-108)

The environment is the sequence of per-attempt outcomes the network produces;
the run returns the Python return value (`Option Json`: `none` is `None`)
together with the trace of observable actions, in order. -/

/-- Outcome of one HTTP attempt, as discriminated by `_request`. -/
inductive HttpEvent where
  | ok (payload : Json)                    -- HTTP 200, parsed body
  | notFound                               -- HTTP 404
  | rateLimited (retryAfter : Option Int)  -- HTTP 429, parsed Retry-After header
  | otherStatus                            -- any other HTTP status
  | clientError                            -- aiohttp.ClientError raised
  | unexpectedError                        -- any other exception
  deriving Repr

/-- Observable actions of `_request`, in program order. -/
inductive ClientAction where
  | rateLimitWait      -- `await self._wait_for_rate_limit()` (line 58)
  | recordTimestamp    -- `self.request_times.append(datetime.now())` (line 71)
  | httpAttempt        -- `session.request(method, url, **kwargs)` (line 73)
  | sleep (seconds : Int)  -- `await asyncio.sleep(...)`
  deriving DecidableEq, Repr

/-- The `for attempt in range(3)` body (lines 69-108).  Each iteration
appends a timestamp, performs the HTTP attempt and discriminates:

* 429: sleep `int(headers.get('Retry-After', 60))` seconds and `continue` —
  which moves to the next iteration of `range(3)`, so the attempt counter
  advances;
* 200: return the payload;
* 404: return `None` immediately;
* other status / `ClientError`: sleep `2 ** attempt` and retry while
  `attempt < 2`, else return `None`;
* any other exception: return `None` immediately.

Falling off the loop returns `None` (line 108). -/
def requestAttempts : ℕ → List HttpEvent → Option Json × List ClientAction
  | _, [] => (none, [])
  | attempt, e :: rest =>
    if 3 ≤ attempt then (none, [])
    else
      match e with
      | .rateLimited ra =>
          let next := requestAttempts (attempt + 1) rest
          (next.1, .recordTimestamp :: .httpAttempt :: .sleep (ra.getD 60) :: next.2)
      | .ok payload => (some payload, [.recordTimestamp, .httpAttempt])
      | .notFound => (none, [.recordTimestamp, .httpAttempt])
      | .otherStatus =>
          if attempt < 2 then
            let next := requestAttempts (attempt + 1) rest
            (next.1, .recordTimestamp :: .httpAttempt :: .sleep (2 ^ attempt) :: next.2)
          else (none, [.recordTimestamp, .httpAttempt])
      | .clientError =>
          if attempt < 2 then
            let next := requestAttempts (attempt + 1) rest
            (next.1, .recordTimestamp :: .httpAttempt :: .sleep (2 ^ attempt) :: next.2)
          else (none, [.recordTimestamp, .httpAttempt])
      | .unexpectedError => (none, [.recordTimestamp, .httpAttempt])

/-- Embedding of `_request` (lines 56-108): a single `_wait_for_rate_limit` before the
attempt loop, then the loop itself. -/
def request (events : List HttpEvent) : Option Json × List ClientAction :=
  let r := requestAttempts 0 events
  (r.1, ClientAction.rateLimitWait :: r.2)

/-! ## Batched queries (`src/api/batch.py` and the batched getters of `src/api/earthmc.py`)

The remote service is modelled as a function from the chunk queried to the
response `_post` returns (`none` is a failed/`None` request). -/

/-- Python iteration over a decoded JSON value, as consumed by
`results.extend(batch_results)` (src/api/batch.py line 37): a list yields its
items, a dict yields its KEYS, a string yields its characters.  (`extend` of
`None`/a number would raise `TypeError`; JSON-decoded bodies here are lists
or objects, and the `if batch_results:` guard has already excluded `None`.) -/
def pyElems : Json → List Json
  | .arr items => items
  | .obj fields => fields.map (fun kv => Json.str kv.1)
  | .str s => s.data.map (fun c => Json.str (String.mk [c]))
  | _ => []

/-- Embedding of `BatchQueryHandler.batch_player_queries` (src/api/batch.py lines 18-40):
chunk the identifiers by `self.batch_size = 100`, `_post` each chunk
sequentially, and `results.extend(batch_results)` whenever the response is
truthy.  Note the `extend` is applied to the raw response: a dict response
contributes its keys. -/
def batch_player_queries (post : List Json → Option Json) (player_identifiers : List Json) :
    List Json :=
  (chunkList player_identifiers 100).foldl
    (fun results batch =>
      match post batch with
      | some br => if pyTruthy br then results ++ pyElems br else results
      | none => results)
    []

/-- The response flattening of `EarthMCAPI.get_towns_by_uuids`
(src/api/earthmc.py lines 208-228): a list response is extended as is, a
dict response contributes its VALUES (`batch_results.values()`), anything
else is logged and contributes nothing. -/
def townsElems : Json → List Json
  | .arr items => items
  | .obj fields => fields.map (fun kv => kv.2)
  | _ => []

/-- Embedding of `EarthMCAPI.get_towns_by_uuids` (src/api/earthmc.py lines 197-234):
return `[]` for an empty input, otherwise chunk the UUID strings by 100,
`_post` each chunk, and flatten each truthy response with `townsElems`. -/
def get_towns_by_uuids (post : List Json → Option Json) (uuids : List String) : List Json :=
  if uuids.isEmpty then []
  else
    (chunkList (uuids.map Json.str) 100).foldl
      (fun results batch =>
        match post batch with
        | some br => if pyTruthy br then results ++ townsElems br else results
        | none => results)
      []

/-! ## TTL cache (`APICache`, src/api/cache.py)

The cache is the dict `self.cache` mapping `"endpoint:identifier"` to
`{'data': ..., 'timestamp': ...}`, modelled as an association list (keys
unique, as in a Python dict); all operations run under one lock, so each is
modelled as an atomic state transformer. -/

structure CacheEntry where
  data : Json
  timestamp : Int
  deriving Repr

/-- Embedding of `APICache._make_key` (src/api/cache.py lines 24-26). -/
def make_key (endpoint identifier : String) : String :=
  endpoint ++ ":" ++ identifier

/-- Embedding of `APICache.get` (src/api/cache.py lines 28-54): a hit only while
`now - entry['timestamp'] < self.ttl` (strict); otherwise the entry is
deleted (`del self.cache[key]`) and `None` returned.  Returns the Python
return value and the post-state. -/
def cache_get (cache : List (String × CacheEntry)) (ttl : Int)
    (endpoint identifier : String) (now : Int) :
    Option Json × List (String × CacheEntry) :=
  match cache.find? (fun kv => kv.1 == make_key endpoint identifier) with
  | some kv =>
      if now - kv.2.timestamp < ttl then (some kv.2.data, cache)
      else (none, cache.filter (fun kv2 => kv2.1 != make_key endpoint identifier))
  | none => (none, cache)

/-- Embedding of `APICache.cleanup_expired` (src/api/cache.py lines 92-111): remove every
entry with `now - entry['timestamp'] >= self.ttl` and return the removed
count. -/
def cleanup_expired (cache : List (String × CacheEntry)) (ttl : Int) (now : Int) :
    ℕ × List (String × CacheEntry) :=
  let expired := cache.filter (fun kv => ttl ≤ now - kv.2.timestamp)
  (expired.length, cache.filter (fun kv => !(ttl ≤ now - kv.2.timestamp)))

/-! ## Snapshot normalization (`prepare_town_for_cache`, src/utils/data_processor.py)

The function builds the dict `upsert_town_cache` persists.  The `residents`
value is `json.dumps(resident_uuids)` (or `'[]'` when empty — which is the
dump of the empty list), and `DatabaseManager.get_town_cache` applies
`json.loads` before the scanner sees the row again; that string round trip
is the identity on the list, so the field is modelled as the list itself
(`Json.arr`).  The remaining persisted scalars are modelled as the Python
values the code extracts (`none` is Python `None`); the SQLite round trip is
modelled as the identity. -/

structure TownCacheRow where
  uuid : Option Json
  name : Option Json
  nation_uuid : Option Json
  mayor_uuid : Option Json
  board : Json
  residents : Json
  is_public : Option Json
  is_open : Option Json
  is_overclaimed : Option Json
  is_for_sale : Option Json
  has_overclaim_shield : Option Json
  num_town_blocks : Option Json
  num_residents : Option Json
  balance : Option Json
  deriving Repr

/-- The resident extraction loop of `prepare_town_for_cache`
(src/utils/data_processor.py lines 46-54): a dict resident contributes its
`uuid` value when that value is truthy (any type — there is no `isinstance`
check here), a string resident is kept as is (even the empty string), and
anything else is dropped. -/
def extractResidentItems : List Json → List Json
  | [] => []
  | r :: rest =>
      match r with
      | .obj fields =>
          match dictGet fields "uuid" with
          | some u => if pyTruthy u then u :: extractResidentItems rest else extractResidentItems rest
          | none => extractResidentItems rest
      | .str s => Json.str s :: extractResidentItems rest
      | _ => extractResidentItems rest

/-- Resident extraction including the `isinstance(residents_data, list)`
guard (src/utils/data_processor.py line 46): a non-list `residents` value
yields `[]`. -/
def extractResidentUuids : Json → List Json
  | .arr items => extractResidentItems items
  | _ => []

/-- Embedding of `prepare_town_for_cache` (src/utils/data_processor.py lines 10-85).
`nation` and `mayor` are guarded with `isinstance(…, dict)`; `status` and
`stats` are NOT — `status.get(...)` on a non-dict raises `AttributeError`,
which escapes the function (and is caught by the scanner's per-town
handler), modelled as `Except.error`.  A `.get` with a `{}` default treats
an absent key as the empty dict. -/
def prepare_town_for_cache (town_data : List (String × Json)) :
    Except Unit TownCacheRow :=
  match dictGetD town_data "status" (.obj []) with
  | .obj statusFields =>
    match dictGetD town_data "stats" (.obj []) with
    | .obj statsFields =>
        let nation_uuid :=
          match dictGetD town_data "nation" (.obj []) with
          | .obj fields => dictGet fields "uuid"
          | _ => none
        let mayor_uuid :=
          match dictGetD town_data "mayor" (.obj []) with
          | .obj fields => dictGet fields "uuid"
          | _ => none
        let board_message := dictGetD town_data "board" (.str "")
        .ok
          { uuid := dictGet town_data "uuid"
            name := dictGet town_data "name"
            nation_uuid := nation_uuid
            mayor_uuid := mayor_uuid
            board := if pyTruthy board_message then board_message else .str ""
            residents := .arr (extractResidentUuids (dictGetD town_data "residents" (.arr [])))
            is_public := dictGet statusFields "isPublic"
            is_open := dictGet statusFields "isOpen"
            is_overclaimed := dictGet statusFields "isOverClaimed"
            is_for_sale := dictGet statusFields "isForSale"
            has_overclaim_shield := dictGet statusFields "hasOverclaimShield"
            num_town_blocks := dictGet statsFields "numTownBlocks"
            num_residents := dictGet statsFields "numResidents"
            balance := dictGet statsFields "balance" }
    | _ => .error ()
  | _ => .error ()

/-! ## Town diffing (`ScannerCog._detect_town_changes`, src/cogs/scanner.py lines 375-495) -/

/-- The string/None/non-list handling of the cached residents value
(src/cogs/scanner.py lines 397-420): a list is used as is; everything else
ends up `[]`.  (A non-empty stored JSON string was already parsed back to a
list by `DatabaseManager.get_town_cache`, so the only string value that can
reach this code is a falsy one, which the code maps to `[]`; `None` and
non-list values are mapped to `[]` explicitly at lines 405-420.) -/
def cachedResidentsList : Json → List Json
  | .arr items => items
  | _ => []

/-- The MIGRATION block of `_detect_town_changes` (src/cogs/scanner.py lines
422-434), run at comparison time on the CACHED side: a dict item contributes
its `uuid` field when that field is a truthy string, a string item is kept,
anything else is dropped. -/
def migrateResidents : List Json → List String
  | [] => []
  | item :: rest =>
      match item with
      | .obj fields =>
          match dictGet fields "uuid" with
          | some (.str s) => if !s.isEmpty then s :: migrateResidents rest else migrateResidents rest
          | _ => migrateResidents rest
      | .str s => s :: migrateResidents rest
      | _ => migrateResidents rest

/-- The current-side resident extraction of `_detect_town_changes`
(src/cogs/scanner.py lines 436-447): same shape as the migration block
(dict items need a truthy string `uuid`; string items are kept). -/
def currentResidentUuids : Json → List String
  | .arr items => migrateResidents items
  | _ => []

/-- The final defensive pass `[str(x) for x in … if x]` (src/cogs/scanner.py
lines 450-451): on a list of strings, `str` is the identity and `if x` drops
the empty string. -/
def keepTruthy (l : List String) : List String :=
  l.filter (fun s => !s.isEmpty)

/-- The milestone detection as invoked by the scanner (src/cogs/scanner.py
lines 481-493) on dynamically-typed values: `old < threshold <= new` is
Python's chained comparison with short-circuit, iterating the sorted
thresholds; comparing a non-number (in particular `None`) with an `int`
raises `TypeError` (modelled as `Except.error`), which the per-town handler
catches.  With no thresholds no comparison is evaluated. -/
def milestoneScan (old new : Option Json) : List Int → Except Unit (Option Int)
  | [] => .ok none
  | t :: rest =>
      match old with
      | some (.num a) =>
          if a < t then
            match new with
            | some (.num b) =>
                if t ≤ b then .ok (some t) else milestoneScan old new rest
            | _ => .error ()
          else milestoneScan old new rest
      | _ => .error ()

def detect_milestone_dyn (old new : Option Json) (thresholds : List Int) :
    Except Unit (Option Int) :=
  milestoneScan old new (thresholds.mergeSort (· ≤ ·))

/-- The changes dict built by `_detect_town_changes`: one optional old/new
pair per key, the resident diffs (present exactly when non-empty, which the
finset models directly), and the optional crossed milestones. -/
structure TownChanges where
  mayor : Option (Option Json × Option Json)
  residents_added : Finset String
  residents_removed : Finset String
  is_public : Option (Option Json × Option Json)
  is_open : Option (Option Json × Option Json)
  is_overclaimed : Option (Option Json × Option Json)
  is_for_sale : Option (Option Json × Option Json)
  has_overclaim_shield : Option (Option Json × Option Json)
  population : Option Int
  balance : Option Int

/-- The empty changes dict `{}`. -/
def emptyChanges : TownChanges :=
  { mayor := none
    residents_added := ∅
    residents_removed := ∅
    is_public := none
    is_open := none
    is_overclaimed := none
    is_for_sale := none
    has_overclaim_shield := none
    population := none
    balance := none }

/-- Truthiness of the changes dict (`if changes:`): some key is present. -/
def changesTruthy (c : TownChanges) : Bool :=
  c.mayor.isSome || decide (c.residents_added ≠ ∅) || decide (c.residents_removed ≠ ∅) ||
  c.is_public.isSome || c.is_open.isSome || c.is_overclaimed.isSome ||
  c.is_for_sale.isSome || c.has_overclaim_shield.isSome ||
  c.population.isSome || c.balance.isSome

/-- One status-flag comparison (src/cogs/scanner.py lines 470-475):
`cached.get(snake_key) != status.get(key)` records the `(old, new)` pair.
The snake-case key computation of line 473 only renames the keys and is
reflected in the field names of `TownChanges`. -/
def flagChange (cachedVal : Option Json) (statusFields : List (String × Json))
    (camel : String) : Option (Option Json × Option Json) :=
  let cur := dictGet statusFields camel
  if !optBeq cachedVal cur then some (cachedVal, cur) else none

/-- A detected milestone is recorded only when truthy (`if pop_milestone:`,
lines 485, 492) — the threshold `0` would be dropped. -/
def truthyMilestone (m : Option Int) : Option Int :=
  match m with
  | some v => if v ≠ 0 then some v else none
  | none => none

/-- Embedding of `ScannerCog._detect_town_changes` (src/cogs/scanner.py lines 375-495).
`cached` is the DB row (or `None`): with no previous snapshot the function
returns `{}` at once (lines 377-378).  Otherwise it compares mayor,
residents (normalizing BOTH sides to UUID-string lists at comparison time),
the five status flags, and the two milestone metrics.  `status.get(...)` /
`stats.get(...)` on a non-dict raise (`Except.error`), as does a milestone
comparison against a non-numeric cached value; the `try` around
`compare_lists` cannot fire on string lists.  The milestone old values are
`cached.get('num_residents', 0)` / `cached.get('balance', 0)`; the row
always carries these keys (the upsert writes every column), so the value is
the stored one — possibly `None`, never the `0` default. -/
def detect_town_changes (cached : Option TownCacheRow) (current : List (String × Json))
    (popThresholds balThresholds : List Int) : Except Unit TownChanges :=
  match cached with
  | none => .ok emptyChanges
  | some row =>
    let current_mayor_uuid :=
      match dictGetD current "mayor" (.obj []) with
      | .obj fields => dictGet fields "uuid"
      | _ => none
    let mayorChange :=
      if !optBeq row.mayor_uuid current_mayor_uuid then
        some (row.mayor_uuid, current_mayor_uuid)
      else none
    let cachedR := keepTruthy (migrateResidents (cachedResidentsList row.residents))
    let currentR := keepTruthy (currentResidentUuids (dictGetD current "residents" (.arr [])))
    let diff := compare_lists cachedR currentR
    match dictGetD current "status" (.obj []) with
    | .obj statusFields =>
      match dictGetD current "stats" (.obj []) with
      | .obj statsFields =>
        match detect_milestone_dyn row.num_residents
            (some (dictGetD statsFields "numResidents" (.num 0))) popThresholds with
        | .error e => .error e
        | .ok popM =>
          match detect_milestone_dyn row.balance
              (some (dictGetD statsFields "balance" (.num 0))) balThresholds with
          | .error e => .error e
          | .ok balM =>
            .ok
              { mayor := mayorChange
                residents_added := diff.1
                residents_removed := diff.2
                is_public := flagChange row.is_public statusFields "isPublic"
                is_open := flagChange row.is_open statusFields "isOpen"
                is_overclaimed := flagChange row.is_overclaimed statusFields "isOverClaimed"
                is_for_sale := flagChange row.is_for_sale statusFields "isForSale"
                has_overclaim_shield :=
                  flagChange row.has_overclaim_shield statusFields "hasOverclaimShield"
                population := truthyMilestone popM
                balance := truthyMilestone balM }
      | _ => .error ()
    | _ => .error ()

/-! ## Per-town processing in the nation scan (src/cogs/scanner.py lines 321-352) -/

/-- Outcome of one iteration of the per-town loop: `skipped` when a guard
fails or an exception is caught by the per-town handler before the snapshot
write; `notifiedNoStore` when `prepare_town_for_cache` raised after the
notification dispatch (lines 343 before 346); `done` when the freshly
prepared snapshot was written. -/
inductive TownStepResult where
  | skipped
  | notifiedNoStore (notified : Bool) (changes : TownChanges)
  | done (notified : Bool) (changes : TownChanges) (stored : TownCacheRow)

/-- One iteration of `for town_data in current_towns:` (src/cogs/scanner.py
lines 321-352): non-dict town data and a falsy `uuid` are skipped; then
`_detect_town_changes`, the `if changes:` notification dispatch
(`_send_notifications` catches its own failures), and always the
`prepare_town_for_cache` + `upsert_town_cache` write — unless an exception
reached the per-town handler first. -/
def processTown (cached : Option TownCacheRow) (town_data : Json)
    (popThresholds balThresholds : List Int) : TownStepResult :=
  match town_data with
  | .obj fields =>
    if !pyTruthy (dictGetD fields "uuid" .null) then .skipped
    else
      match detect_town_changes cached fields popThresholds balThresholds with
      | .error _ => .skipped
      | .ok changes =>
        let notified := changesTruthy changes
        match prepare_town_for_cache fields with
        | .error _ => .notifiedNoStore notified changes
        | .ok row => .done notified changes row
  | _ => .skipped

/-! ## Scan cycles (`run_user_scan` / `run_nation_scan`, src/cogs/scanner.py)

Each cycle is a total function of its environment; every raising site inside
the cycle-level `try` is an `Except` in the environment or in a sub-step,
and the cycle-level `except` maps any of them to the zero result. -/

/-- The dict returned by a scan cycle:
`{'scanned': …, 'changes': …, 'duration': …}`. -/
structure ScanResult where
  scanned : ℕ
  changes : ℕ
  duration : Int
  deriving DecidableEq, Repr

/-- The zero result of the user scan's `except` branch (src/cogs/scanner.py
lines 113-119). -/
def zeroScan : ScanResult := ⟨0, 0, 0⟩

/-- A row of `get_all_verified_users` as consumed by `run_user_scan`. -/
structure UserRecord where
  minecraft_uuid : String
  discord_id : String
  town_uuid : Option Json
  nation_uuid : Option Json

/-- Embedding of `current_lookup = {p['uuid']: p for p in current_data}` (line 82):
`p['uuid']` raises on a non-dict entry or a missing key (and the scanner's
keys are strings), so the comprehension is fallible; later entries with the
same key overwrite earlier ones. -/
def buildLookup : List Json → Except Unit (List (String × List (String × Json)))
  | [] => .ok []
  | .obj fields :: rest =>
      match dictGet fields "uuid" with
      | some (.str s) =>
          match buildLookup rest with
          | .ok acc => .ok ((s, fields) :: acc.filter (fun kv => kv.1 != s))
          | .error e => .error e
      | _ => .error ()
  | _ => .error ()

/-- Embedding of `dict.get` on the lookup built above (later entries already overwrote
earlier ones). -/
def lookupGet (lookup : List (String × List (String × Json))) (k : String) :
    Option (List (String × Json)) :=
  (lookup.find? (fun kv => kv.1 == k)).map (fun kv => kv.2)

/-- Embedding of `ScannerCog._check_user_changes` (src/cogs/scanner.py lines 121-136):
`current.get('town', {})` / `current.get('nation', {})` followed by `.get('uuid')`
— a key present with a non-dict value (e.g. `None`) raises, escaping to the
cycle-level handler. -/
def check_user_changes (stored : UserRecord) (current : List (String × Json)) :
    Except Unit Bool :=
  match dictGetD current "town" (.obj []) with
  | .obj townFields =>
    match dictGetD current "nation" (.obj []) with
    | .obj nationFields =>
        .ok (!optBeq stored.town_uuid (dictGet townFields "uuid") ||
             !optBeq stored.nation_uuid (dictGet nationFields "uuid"))
    | _ => .error ()
  | _ => .error ()

/-- The per-user loop of `run_user_scan` (src/cogs/scanner.py lines 85-102):
users without current data are skipped (`if not current: continue` — also
skips a falsy empty dict), otherwise `_check_user_changes` decides whether a
change is counted (`_update_user` catches its own exceptions and cannot
abort the cycle).  An exception from `_check_user_changes` propagates. -/
def countUserChanges (lookup : List (String × List (String × Json))) :
    List UserRecord → Except Unit ℕ
  | [] => .ok 0
  | u :: rest =>
      match lookupGet lookup u.minecraft_uuid with
      | none => countUserChanges lookup rest
      | some fields =>
          if fields.isEmpty then countUserChanges lookup rest
          else
            match check_user_changes u fields with
            | .error e => .error e
            | .ok changed =>
                match countUserChanges lookup rest with
                | .error e => .error e
                | .ok n => .ok (if changed then n + 1 else n)

/-- Environment of one user-scan cycle: the DB fetch, the batched API fetch
(both fallible), and the wall-clock duration the cycle observes. -/
structure UserScanEnv where
  users : Except Unit (List UserRecord)
  playerData : Except Unit (List Json)
  elapsed : Int

/-- Embedding of `ScannerCog.run_user_scan` (src/cogs/scanner.py lines 66-119): any
exception inside the cycle body is caught by the `except` at lines 113-119
and yields `{'scanned': 0, 'changes': 0, 'duration': 0}`; otherwise the
cycle reports the number of users fetched and the changes counted. -/
def run_user_scan (env : UserScanEnv) : ScanResult :=
  match env.users with
  | .error _ => zeroScan
  | .ok users =>
    match env.playerData with
    | .error _ => zeroScan
    | .ok pdata =>
      match buildLookup pdata with
      | .error _ => zeroScan
      | .ok lookup =>
        match countUserChanges lookup users with
        | .error _ => zeroScan
        | .ok c => ⟨users.length, c, env.elapsed⟩

/-- Environment for processing one configured nation inside the nation scan:
the `get_nation_by_name` result (that function catches its own exceptions
and returns `None` on failure), the `get_towns_by_uuids` result, and the
cached row per town UUID (`db.get_town_cache`). -/
structure NationEnv where
  nationData : Option (List (String × Json))
  townsResult : List Json
  cachedRows : String → Option TownCacheRow

/-- The town-UUID extraction of src/cogs/scanner.py lines 294-303: dict
entries contribute a truthy `uuid`, string entries are kept. -/
def townUuidsOf (towns : Json) : List Json :=
  match towns with
  | .arr items =>
      items.foldr
        (fun t acc =>
          match t with
          | .obj fields =>
              match dictGet fields "uuid" with
              | some u => if pyTruthy u then u :: acc else acc
              | none => acc
          | .str s => Json.str s :: acc
          | _ => acc)
        []
  | _ => []

/-- One iteration of `for nation_config in main_nations:` (src/cogs/scanner.py
lines 243-356), returning the `(towns_scanned, changes_detected)` increments.
All validation failures and the per-nation `except` fall through to the next
nation contributing nothing; `towns_scanned` is incremented by the number of
extracted town UUIDs BEFORE the empty check (line 305 before 307). -/
def processNation (cfg : Json) (env : NationEnv)
    (popThresholds balThresholds : List Int) : ℕ × ℕ :=
  match cfg with
  | .obj cfgFields =>
    match dictGet cfgFields "name" with
    | some (.str rawName) =>
      if rawName.isEmpty then (0, 0)
      else if rawName.trim.isEmpty then (0, 0)
      else
        match env.nationData with
        | none => (0, 0)
        | some nation_data =>
          if !pyTruthy (dictGetD nation_data "uuid" .null) then (0, 0)
          else
            let town_uuids := townUuidsOf (dictGetD nation_data "towns" (.arr []))
            let scanned := town_uuids.length
            if town_uuids.isEmpty then (scanned, 0)
            else if env.townsResult.isEmpty then (scanned, 0)
            else
              let counted := env.townsResult.foldl
                (fun acc td =>
                  let uuid :=
                    match td with
                    | .obj f =>
                        match dictGet f "uuid" with
                        | some (.str s) => s
                        | _ => ""
                    | _ => ""
                  match processTown (env.cachedRows uuid) td popThresholds balThresholds with
                  | .skipped => acc
                  | .notifiedNoStore notified _ => if notified then acc + 1 else acc
                  | .done notified _ _ => if notified then acc + 1 else acc)
                0
              (scanned, counted)
    | some _ => (0, 0)
    | none => (0, 0)
  | _ => (0, 0)

/-- Environment of one nation-scan cycle: the `main_nations` config value
(fallible — e.g. a broken config object raising in `config.get` or in the
`for` iteration), a `NationEnv` per nation index, and the observed elapsed
time. -/
structure NationScanEnv where
  main_nations : Except Unit (List Json)
  perNation : ℕ → NationEnv
  popThresholds : List Int
  balThresholds : List Int
  elapsed : Int

/-- Embedding of `ScannerCog.run_nation_scan` (src/cogs/scanner.py lines 223-373): an
empty `main_nations` returns `{'scanned': 0, 'changes': 0, 'duration': 0}`
early (lines 233-239); a cycle-level exception is caught at lines 367-373
and yields zero scanned/changed with the elapsed duration; otherwise the
per-nation increments are summed. -/
def run_nation_scan (env : NationScanEnv) : ScanResult :=
  match env.main_nations with
  | .error _ => ⟨0, 0, env.elapsed⟩
  | .ok [] => ⟨0, 0, 0⟩
  | .ok nations =>
      let totals := (nations.enum.map
        (fun ci => processNation ci.2 (env.perNation ci.1) env.popThresholds env.balThresholds))
      ⟨(totals.map Prod.fst).sum, (totals.map Prod.snd).sum, env.elapsed⟩

/-! ## Helper lemmas -/

/-- Lemma: `find?` on a `≤`-sorted list returns exactly the least element satisfying
the predicate. -/
theorem find_first_sorted {p : Int → Bool} :
    ∀ {l : List Int}, l.Sorted (· ≤ ·) → ∀ {t : Int},
      (l.find? p = some t ↔
        (t ∈ l ∧ p t = true ∧ ∀ t' ∈ l, p t' = true → t ≤ t')) := by
  intro l
  induction l with
  | nil => intro _ t; simp
  | cons a l ih =>
    intro hs t
    obtain ⟨ha, hl⟩ := List.sorted_cons.mp hs
    by_cases hpa : p a = true
    · rw [List.find?_cons_of_pos _ hpa]
      constructor
      · intro h
        obtain rfl : a = t := by injection h
        refine ⟨List.mem_cons_self _ _, hpa, ?_⟩
        intro t' ht' _
        rcases List.mem_cons.mp ht' with rfl | ht'
        · exact le_refl _
        · exact ha t' ht'
      · rintro ⟨ht, hpt, hmin⟩
        have h1 : t ≤ a := hmin a (List.mem_cons_self _ _) hpa
        rcases List.mem_cons.mp ht with rfl | ht
        · rfl
        · exact congrArg some (le_antisymm h1 (ha t ht)).symm
    · rw [List.find?_cons_of_neg _ hpa]
      rw [ih hl]
      constructor
      · rintro ⟨ht, hpt, hmin⟩
        refine ⟨List.mem_cons_of_mem _ ht, hpt, ?_⟩
        intro t' ht' hpt'
        rcases List.mem_cons.mp ht' with rfl | ht'
        · exact absurd hpt' hpa
        · exact hmin t' ht' hpt'
      · rintro ⟨ht, hpt, hmin⟩
        rcases List.mem_cons.mp ht with rfl | ht
        · exact absurd hpt hpa
        · exact ⟨ht, hpt, fun t' ht' hpt' => hmin t' (List.mem_cons_of_mem _ ht') hpt'⟩

/-! ## Claim theorems -/

/-- Claim C6: for every old value, new value, and ascending list of numeric
thresholds, `detect_milestone` returns a threshold `t` exactly when
`old_value < t ≤ new_value`, and when several thresholds satisfy this it
returns only the lowest one; in particular
`detect_milestone 95 105 [100, 500, 1000] = 100` and
`detect_milestone 50 250 [100, 200] = 100`. -/
theorem detect_milestone_lowest_threshold :
    (∀ (old_value new_value : Int) (thresholds : List Int),
        thresholds.Sorted (· ≤ ·) →
        ∀ t : Int,
          (detect_milestone old_value new_value thresholds = some t ↔
            (t ∈ thresholds ∧ old_value < t ∧ t ≤ new_value ∧
              ∀ t' ∈ thresholds, old_value < t' → t' ≤ new_value → t ≤ t'))) ∧
    detect_milestone 95 105 [100, 500, 1000] = some 100 ∧
    detect_milestone 50 250 [100, 200] = some 100 := by
  refine ⟨?_, ?_, ?_⟩
  · intro old_value new_value thresholds hs t
    unfold detect_milestone
    rw [List.mergeSort_eq_self hs, find_first_sorted hs]
    simp only [Bool.and_eq_true, decide_eq_true_eq, and_imp]
    tauto
  · unfold detect_milestone
    rw [List.mergeSort_eq_self (by decide : List.Sorted (· ≤ ·) [(100:Int), 500, 1000])]
    decide
  · unfold detect_milestone
    rw [List.mergeSort_eq_self (by decide : List.Sorted (· ≤ ·) [(100:Int), 200])]
    decide

/-- Witness for C6: the characterization applied at the claim's own second
example (`old = 50`, `new = 250`, thresholds `[100, 200]`): `100` is
returned, satisfies `50 < 100 ≤ 250`, and is the lowest such threshold. -/
theorem detect_milestone_lowest_threshold_witness :
    List.Sorted (· ≤ ·) [(100:Int), 200] ∧
    (detect_milestone 50 250 [100, 200] = some 100 ↔
      (100 ∈ [(100:Int), 200] ∧ (50:Int) < 100 ∧ (100:Int) ≤ 250 ∧
        ∀ t' ∈ [(100:Int), 200], 50 < t' → t' ≤ 250 → 100 ≤ t')) :=
  ⟨by decide, detect_milestone_lowest_threshold.1 50 250 [100, 200] (by decide) 100⟩

/-- Claim C8: for every cache state and every `get` call, a payload is
returned only if the stored entry's age is strictly less than the TTL; if
the age meets or exceeds the TTL the entry is deleted during that call and a
miss is returned — no entry is ever returned stale. -/
theorem cache_get_never_stale (cache : List (String × CacheEntry)) (ttl : Int)
    (endpoint identifier : String) (now : Int) :
    (∀ d, (cache_get cache ttl endpoint identifier now).1 = some d →
        ∃ kv, cache.find? (fun kv => kv.1 == make_key endpoint identifier) = some kv ∧
          now - kv.2.timestamp < ttl ∧ d = kv.2.data) ∧
    (∀ kv, cache.find? (fun kv => kv.1 == make_key endpoint identifier) = some kv →
        ttl ≤ now - kv.2.timestamp →
        (cache_get cache ttl endpoint identifier now).1 = none ∧
          ((cache_get cache ttl endpoint identifier now).2.find?
            (fun kv2 => kv2.1 == make_key endpoint identifier)) = none) := by
  constructor
  · intro d hd
    unfold cache_get at hd
    rcases hfind : cache.find? (fun kv => kv.1 == make_key endpoint identifier) with _ | kv
    · rw [hfind] at hd; exact absurd hd (by simp)
    · rw [hfind] at hd
      dsimp only at hd
      by_cases hage : now - kv.2.timestamp < ttl
      · rw [if_pos hage] at hd
        exact ⟨kv, hfind, hage, by injection hd with h; exact h.symm⟩
      · rw [if_neg hage] at hd
        exact absurd hd (by simp)
  · intro kv hfind hage
    have hnlt : ¬(now - kv.2.timestamp < ttl) := not_lt.mpr hage
    constructor
    · unfold cache_get
      rw [hfind]
      dsimp only
      rw [if_neg hnlt]
    · unfold cache_get
      rw [hfind]
      dsimp only
      rw [if_neg hnlt]
      simp only [List.find?_eq_none]
      intro x hx
      have := List.of_mem_filter hx
      simpa using this

/-- Witness for C8: a cache holding one entry fetched at instant 0, `ttl` 300,
queried at instant 400: the entry's age meets the TTL, so the call misses
and the entry is gone from the post-state. -/
theorem requestAttempts_no_wait (attempt : ℕ) (events : List HttpEvent) :
    (requestAttempts attempt events).2.count ClientAction.rateLimitWait = 0 := by
  induction events generalizing attempt with
  | nil => simp [requestAttempts]
  | cons e rest ih =>
    unfold requestAttempts
    by_cases h3 : 3 ≤ attempt
    · simp [h3]
    · rw [if_neg h3]
      cases e <;> dsimp only <;>
        first
        | simp [List.count_cons, ih]
        | (split <;> simp [List.count_cons, ih])

theorem cache_get_never_stale_witness :
    (cache_get [("towns:t1", ⟨Json.num 1, 0⟩)] 300 "towns" "t1" 400).1 = none ∧
      ((cache_get [("towns:t1", ⟨Json.num 1, 0⟩)] 300 "towns" "t1" 400).2.find?
        (fun kv2 => kv2.1 == make_key "towns" "t1")) = none :=
  (cache_get_never_stale [("towns:t1", ⟨Json.num 1, 0⟩)] 300 "towns" "t1" 400).2
    ("towns:t1", ⟨Json.num 1, 0⟩) (by rfl) (by decide)

/-- Counterexample to claim C1 as stated: the `continue` on HTTP 429 is the
`continue` of `for attempt in range(3)`, so a 429 DOES consume one of the 3
attempts, and after three consecutive 429s the request returns `None` — the
same failure value as an exhausted ordinary retry — without ever reaching
the HTTP 200 a fourth attempt would have received.  (The control contrasts
with two ordinary errors followed by a 200, which does succeed within the
3-attempt budget.)  This refutes both "without that 429 consuming one of the
3 bounded retry attempts" and "a 429 is never surfaced as a failure
result". -/
theorem rate_limited_surfaces_failure_cex :
    (request [.rateLimited (some 5), .rateLimited none, .rateLimited none,
      .ok (.num 7)]).1 = none ∧
    (request [.otherStatus, .otherStatus, .ok (.num 7)]).1 = some (.num 7) :=
  ⟨rfl, rfl⟩

/-- Claim C1 as amended: on HTTP 429 the client records its timestamp,
attempts, sleeps for the response's Retry-After duration (defaulting to 60
seconds when the header is absent) and retries — but the retry consumes one
of the same 3 attempts shared with ordinary errors, and three consecutive
429 responses exhaust the budget and surface the failure result `None`. -/
theorem rate_limited_retry_consumes_budget :
    (∀ (ra : Option Int) (rest : List HttpEvent) (attempt : ℕ), attempt < 3 →
        requestAttempts attempt (.rateLimited ra :: rest) =
          ((requestAttempts (attempt + 1) rest).1,
            .recordTimestamp :: .httpAttempt :: .sleep (ra.getD 60) ::
              (requestAttempts (attempt + 1) rest).2)) ∧
    (∀ rest : List HttpEvent,
        (request (.rateLimited none :: .rateLimited none :: .rateLimited none :: rest)).1 =
          none) := by
  constructor
  · intro ra rest attempt h
    conv_lhs => rw [requestAttempts]
    rw [if_neg (by omega)]
  · intro rest
    cases rest <;> rfl

/-- Witness for the amended C1: the first 429 (with `Retry-After: 5`) of a
request sleeps exactly 5 seconds and hands the attempt counter on as attempt
2; and three 429s followed by an available 200 still produce `None`. -/
theorem rate_limited_retry_consumes_budget_witness :
    requestAttempts 0 [.rateLimited (some 5)] =
      ((requestAttempts 1 []).1,
        .recordTimestamp :: .httpAttempt :: .sleep 5 :: (requestAttempts 1 []).2) ∧
    (request [.rateLimited none, .rateLimited none, .rateLimited none,
      .ok (.num 7)]).1 = none :=
  ⟨rate_limited_retry_consumes_budget.1 (some 5) [] 0 (by decide),
    rate_limited_retry_consumes_budget.2 [.ok (.num 7)]⟩

/-- Counterexample to claim C2 as stated: a request whose first attempt hits
an ordinary error performs two HTTP attempts but only one rate-limiter wait
— the admission wait is NOT performed before the retry attempt. -/
theorem rate_limit_wait_once_cex :
    (request [.otherStatus, .ok (.num 7)]).2.count ClientAction.rateLimitWait = 1 ∧
    (request [.otherStatus, .ok (.num 7)]).2.count ClientAction.httpAttempt = 2 := by
  constructor <;> rfl

/-- Claim C2 as amended: `_wait_for_rate_limit` runs exactly once per
request, as the very first action, before the first attempt only; retry
attempts (each of which still appends an admission timestamp) do not repeat
the admission wait. -/
theorem rate_limit_wait_once_per_request (events : List HttpEvent) :
    (request events).2.count ClientAction.rateLimitWait = 1 ∧
    (request events).2.head? = some ClientAction.rateLimitWait := by
  constructor
  · show (ClientAction.rateLimitWait :: (requestAttempts 0 events).2).count
      ClientAction.rateLimitWait = 1
    rw [List.count_cons]
    simp [requestAttempts_no_wait]
  · rfl

/-- Counterexample to claim C4 as stated: the claim's "NotFound outcome is a
result value distinguishable by callers from the Error result" is false —
`_request` returns the same `None` for an HTTP 404 as for three exhausted
ordinary-error attempts, so callers cannot tell the two apart. -/
theorem not_found_indistinguishable_cex :
    (request [.notFound]).1 = (request [.otherStatus, .otherStatus, .otherStatus]).1 ∧
    (request [.notFound]).1 = none :=
  ⟨rfl, rfl⟩

/-- Claim C4 as amended: HTTP 404 returns immediately — a single recorded
attempt, no backoff sleep, no retry, no exception past the boundary (the
run is a total function into the result) — but the value returned is `None`,
the very same value the request produces after exhausting its retry
attempts, so absence is NOT distinguishable from error by callers. -/
theorem not_found_immediate_return :
    (∀ (rest : List HttpEvent) (attempt : ℕ), attempt < 3 →
        requestAttempts attempt (.notFound :: rest) =
          (none, [.recordTimestamp, .httpAttempt])) ∧
    (request [.notFound]).1 = (request [.otherStatus, .otherStatus, .otherStatus]).1 := by
  constructor
  · intro rest attempt h
    conv_lhs => rw [requestAttempts]
    rw [if_neg (by omega)]
  · rfl

/-- Witness for the amended C4: a 404 on the first attempt of a request with
further responses available stops at once with `None`. -/
theorem not_found_immediate_return_witness :
    requestAttempts 0 [.notFound, .ok (.num 7)] =
      (none, [.recordTimestamp, .httpAttempt]) ∧
    (request [.notFound]).1 = (request [.otherStatus, .otherStatus, .otherStatus]).1 :=
  ⟨not_found_immediate_return.1 [.ok (.num 7)] 0 (by decide),
    not_found_immediate_return.2⟩

/-- Claim C5, evaluated at the failing input: when a chunk's response is the
keyed mapping `{"u1": {..payload..}}`, `BatchQueryHandler.batch_player_queries`
appends the mapping's KEY (`"u1"`, an identifier string) to the aggregated
result — not the payload value — because `results.extend(batch_results)`
iterates a dict by its keys; `EarthMCAPI.get_towns_by_uuids`, by contrast,
flattens the same response to its payload values via
`batch_results.values()`, which is the behavior the claim (and the
function's own docstring, "Returns: List of player data dictionaries")
describes.  The two flattenings therefore disagree, and the buggy one is the
batch handler's. -/
theorem batch_player_queries_dict_keys_bug :
    batch_player_queries (fun _ => some (.obj [("u1", .obj [("name", .str "Town1")])]))
        [.obj [("uuid", .str "u1")]] = [.str "u1"] ∧
    get_towns_by_uuids (fun _ => some (.obj [("u1", .obj [("name", .str "Town1")])]))
        ["u1"] = [.obj [("name", .str "Town1")]] :=
  ⟨rfl, rfl⟩

/-- Claim C7: an entity with no previous snapshot produces an empty
ChangeSet (`_detect_town_changes` returns `{}` for `cached = None`), the
empty ChangeSet is falsy so no notification is dispatched, and the freshly
normalized snapshot (`prepare_town_for_cache`) is still written. -/
theorem first_observation_suppressed (fields : List (String × Json))
    (popThresholds balThresholds : List Int) (row : TownCacheRow)
    (huuid : pyTruthy (dictGetD fields "uuid" .null) = true)
    (hprep : prepare_town_for_cache fields = .ok row) :
    detect_town_changes none fields popThresholds balThresholds = .ok emptyChanges ∧
    changesTruthy emptyChanges = false ∧
    processTown none (.obj fields) popThresholds balThresholds =
      .done false emptyChanges row := by
  refine ⟨rfl, rfl, ?_⟩
  unfold processTown
  dsimp only
  rw [huuid, if_neg (by simp)]
  dsimp only [detect_town_changes]
  rw [hprep]
  rfl

/-- Witness for C7: a first-seen town payload (truthy `uuid`, a mayor and a
resident, no stored snapshot) yields no notification yet its normalized
snapshot — residents reduced to the bare UUID list — is stored. -/
theorem first_observation_suppressed_witness :
    detect_town_changes none
        [("uuid", Json.str "t1"), ("mayor", Json.obj [("uuid", Json.str "A")]),
          ("residents", Json.arr [Json.obj [("uuid", Json.str "u1")]])] [] [] =
      .ok emptyChanges ∧
    changesTruthy emptyChanges = false ∧
    processTown none
        (.obj [("uuid", Json.str "t1"), ("mayor", Json.obj [("uuid", Json.str "A")]),
          ("residents", Json.arr [Json.obj [("uuid", Json.str "u1")]])]) [] [] =
      .done false emptyChanges
        { uuid := some (.str "t1"), name := none, nation_uuid := none,
          mayor_uuid := some (.str "A"), board := .str "",
          residents := .arr [.str "u1"], is_public := none, is_open := none,
          is_overclaimed := none, is_for_sale := none, has_overclaim_shield := none,
          num_town_blocks := none, num_residents := none, balance := none } :=
  first_observation_suppressed
    [("uuid", Json.str "t1"), ("mayor", Json.obj [("uuid", Json.str "A")]),
      ("residents", Json.arr [Json.obj [("uuid", Json.str "u1")]])] [] [] _
    (by rfl) (by rfl)

/-- Claim C9: any exception escaping the per-entity handling of a scan cycle
is caught at the cycle level; the user scan then returns the zero
`ScanResult` `{'scanned': 0, 'changes': 0, 'duration': 0}` and the nation
scan returns zero scanned and zero changes.  Both cycle functions are total,
so no failure raises past the public entry point (and the task wrappers at
src/cogs/scanner.py lines 41-44 and 55-58 guard the next scheduled cycle
besides). -/
theorem scan_cycle_fatal_zero_result :
    (∀ env : UserScanEnv,
        (env.users = .error () ∨ env.playerData = .error () ∨
          (∃ pdata, env.playerData = .ok pdata ∧ buildLookup pdata = .error ()) ∨
          (∃ users pdata lookup, env.users = .ok users ∧ env.playerData = .ok pdata ∧
            buildLookup pdata = .ok lookup ∧ countUserChanges lookup users = .error ())) →
        run_user_scan env = zeroScan) ∧
    (∀ env : NationScanEnv, env.main_nations = .error () →
        (run_nation_scan env).scanned = 0 ∧ (run_nation_scan env).changes = 0) := by
  constructor
  · intro env h
    rcases h with h | h | ⟨pdata, hp, hb⟩ | ⟨users, pdata, lookup, hu, hp, hb, hc⟩
    · simp [run_user_scan, h]
    · rcases hu : env.users with _ | u <;> simp [run_user_scan, h, hu]
    · rcases hu : env.users with _ | u <;> simp [run_user_scan, hp, hb, hu]
    · simp [run_user_scan, hu, hp, hb, hc]
  · intro env h
    unfold run_nation_scan
    rw [h]
    exact ⟨rfl, rfl⟩

/-- Witness for C9: a user-scan environment whose database fetch raised
yields the zero result, and a nation-scan environment whose config fetch
raised reports zero scanned and zero changed. -/
theorem scan_cycle_fatal_zero_result_witness :
    run_user_scan ⟨.error (), .ok [], 5⟩ = zeroScan ∧
    (run_nation_scan ⟨.error (), fun _ => ⟨none, [], fun _ => none⟩, [], [], 7⟩).scanned = 0 ∧
    (run_nation_scan ⟨.error (), fun _ => ⟨none, [], fun _ => none⟩, [], [], 7⟩).changes = 0 :=
  ⟨scan_cycle_fatal_zero_result.1 ⟨.error (), .ok [], 5⟩ (Or.inl rfl),
    scan_cycle_fatal_zero_result.2 ⟨.error (), fun _ => ⟨none, [], fun _ => none⟩, [], [], 7⟩ rfl⟩

/-- Instants never move backwards through the admission wait. -/
theorem now_le_releaseTime (rate_limit : ℕ) (times : List Int) (now : Int) :
    now ≤ releaseTime rate_limit times now := by
  unfold releaseTime
  split
  · split
    · exact le_refl _
    · exact le_max_left _ _
  · exact le_refl _

theorem pruneTimes_of_filter (hist : List Int) (c now : Int) (h : c ≤ now) :
    pruneTimes (hist.filter (fun a => c - a < 60)) now =
      hist.filter (fun a => now - a < 60) := by
  unfold pruneTimes
  rw [List.filter_filter]
  refine List.filter_congr ?_
  intro a _
  by_cases hna : now - a < 60
  · have hca : c - a < 60 := by omega
    simp [hna, hca]
  · simp [hna]

theorem limiter_inv {rate_limit : ℕ} (hpos : 0 < rate_limit)
    {times : List Int} {lastCall lastRec : Int} {hist : List Int}
    (h : LimiterReach rate_limit times lastCall lastRec hist) :
    (∀ a ∈ hist, a ≤ lastRec) ∧ lastCall ≤ lastRec ∧
      times = hist.filter (fun a => lastCall - a < 60) ∧
      ∀ t : Int, windowCount hist t ≤ rate_limit := by
  induction h with
  | init t =>
    refine ⟨by simp, le_refl _, rfl, ?_⟩
    intro t'
    simp [windowCount]
  | step now recT h hle hrel ih =>
    obtain ⟨h1, h2, h3, h4⟩ := ih
    rename_i times lastCall lastRec hist
    have hCR : lastCall ≤ now := le_trans h2 hle
    have hprune : pruneTimes times now = hist.filter (fun a => now - a < 60) := by
      rw [h3]; exact pruneTimes_of_filter hist lastCall now hCR
    have hnr : now ≤ recT := le_trans (now_le_releaseTime rate_limit times now) hrel
    -- the pruned window is never longer than the limit
    have hplen : (hist.filter (fun a => now - a < 60)).length ≤ rate_limit := by
      have hcongr : hist.filter (fun a => now - a < 60) =
          hist.filter (fun a => now - a < 60 && a ≤ now) := by
        refine (List.filter_congr ?_).symm
        intro a ha
        have : a ≤ now := le_trans (h1 a ha) hle
        simp [this]
      rw [hcongr]
      exact h4 now
    refine ⟨?_, hnr, ?_, ?_⟩
    · intro a ha
      rcases List.mem_append.mp ha with ha | ha
      · exact le_trans (h1 a ha) (le_trans hle hnr)
      · simp only [List.mem_singleton] at ha
        exact le_of_eq ha
    · unfold admissionStep
      rw [hprune, List.filter_append]
      congr 1
      have hlt : now - recT < 60 := by omega
      simp [hlt]
    · intro t
      have hsplit : windowCount (hist ++ [recT]) t =
          windowCount hist t + windowCount [recT] t := by
        simp [windowCount, List.filter_append]
      rw [hsplit]
      by_cases hin : (t - recT < 60 ∧ recT ≤ t)
      · obtain ⟨hin1, hin2⟩ := hin
        have hone : windowCount [recT] t = 1 := by
          unfold windowCount
          simp [List.filter_cons, hin1, hin2]
        rw [hone]
        have hnt : now ≤ t := le_trans hnr hin2
        have hfw : (hist.filter (fun a => now - a < 60)).filter
              (fun a => t - a < 60 && a ≤ t) =
            hist.filter (fun a => t - a < 60 && a ≤ t) := by
          rw [List.filter_filter]
          refine List.filter_congr ?_
          intro a _
          by_cases hw1 : t - a < 60
          · by_cases hw2 : a ≤ t
            · have hwn : now - a < 60 := by omega
              simp [hw1, hw2, hwn]
            · simp [hw2]
          · simp [hw1]
        by_cases hfull : rate_limit ≤ (hist.filter (fun a => now - a < 60)).length
        · have hlen : (hist.filter (fun a => now - a < 60)).length = rate_limit :=
            le_antisymm hplen hfull
          obtain ⟨oldest, rest, hp⟩ :
              ∃ o r, hist.filter (fun a => now - a < 60) = o :: r := by
            rcases hq : hist.filter (fun a => now - a < 60) with _ | ⟨o, r⟩
            · rw [hq] at hlen; simp at hlen; omega
            · exact ⟨o, r, rfl⟩
          have hrt : releaseTime rate_limit times now = max now (oldest + 60) := by
            unfold releaseTime
            rw [show pruneTimes times now = oldest :: rest from hprune.trans hp]
            rw [if_pos (by rw [← hp, hlen])]
          have hold : oldest + 60 ≤ recT := by
            rw [hrt] at hrel
            exact le_trans (le_max_right _ _) hrel
          have holdf : ¬(t - oldest < 60) := by omega
          have hbound : windowCount hist t ≤ rate_limit - 1 := by
            unfold windowCount
            rw [← hfw, hp, List.filter_cons]
            have hcnd : (decide (t - oldest < 60) && decide (oldest ≤ t)) = false := by
              simp [holdf]
            rw [hcnd]
            simp only [Bool.false_eq_true, if_false]
            have hr1 : (List.filter (fun a => t - a < 60 && a ≤ t) rest).length ≤
                rest.length := List.length_filter_le _ _
            have hr2 : rest.length = rate_limit - 1 := by
              have := hlen
              rw [hp] at this
              simp at this
              omega
            omega
          omega
        · have hsmall : windowCount hist t ≤
              (hist.filter (fun a => now - a < 60)).length := by
            unfold windowCount
            rw [← hfw]
            exact List.length_filter_le _ _
          omega
      · have hzero : windowCount [recT] t = 0 := by
          unfold windowCount
          have hcnd : (decide (t - recT < 60) && decide (recT ≤ t)) = false := by
            rcases not_and_or.mp hin with h | h <;> simp [h]
          simp [List.filter_cons, hcnd]
        rw [hzero]
        simpa using h4 t

/-- Claim C3: for every sequence of admissions produced by the rate-limiting
logic (each admission pruning the window, suspending until
`60 - (now - oldest)` seconds have elapsed whenever the pruned window is
full — the `releaseTime` bound of the `LimiterReach` step — and then
recording its timestamp), no rolling 60-second window contains more than
`rate_limit` admissions. -/
theorem rate_limiter_window_bound {rate_limit : ℕ} (hpos : 0 < rate_limit)
    {times : List Int} {lastCall lastRec : Int} {hist : List Int}
    (h : LimiterReach rate_limit times lastCall lastRec hist) (t : Int) :
    windowCount hist t ≤ rate_limit :=
  (limiter_inv hpos h).2.2.2 t

/-- Witness for C3: with `rate_limit = 1`, an admission recorded at instant 0
followed by a call at instant 30 — whose full window forces the release time
`max 30 (0 + 60) = 60` — records at instant 60, and the window ending at 60
holds just one admission. -/
theorem rate_limiter_window_bound_witness :
    0 < 1 ∧ windowCount [0, 60] 60 ≤ 1 := by
  refine ⟨Nat.one_pos, ?_⟩
  have h0 : LimiterReach 1 [] 0 0 [] := .init 0
  have h1 : LimiterReach 1 (admissionStep [] 0 0) 0 0 ([] ++ [0]) :=
    .step 0 0 h0 (by decide) (by decide)
  have h2 : LimiterReach 1 (admissionStep (admissionStep [] 0 0) 30 60) 30 60
      (([] ++ [0]) ++ [60]) :=
    .step 30 60 h1 (by decide) (by decide)
  exact rate_limiter_window_bound Nat.one_pos h2 60

theorem migrateResidents_map_str (uuids : List String) :
    migrateResidents (uuids.map Json.str) = uuids := by
  induction uuids with
  | nil => rfl
  | cons s rest ih => simp [migrateResidents, ih]

theorem extract_eq_map_migrate : ∀ items : List Json,
    (∀ item ∈ items,
      (∃ s : String, item = .str s) ∨
      (∃ fields s, item = .obj fields ∧ dictGet fields "uuid" = some (.str s) ∧ s ≠ "")) →
    extractResidentItems items = (migrateResidents items).map Json.str := by
  intro items
  induction items with
  | nil => intro _; rfl
  | cons item rest ih =>
    intro hwf
    have hr := ih (fun i hi => hwf i (List.mem_cons_of_mem _ hi))
    rcases hwf item (List.mem_cons_self _ _) with ⟨s, rfl⟩ | ⟨fields, s, rfl, huuid, hne⟩
    · simp only [extractResidentItems, migrateResidents, List.map_cons, hr]
    · have hempty : s.isEmpty = false := by
        cases h : s.isEmpty
        · rfl
        · exact absurd ((String.isEmpty_iff s).mp h) hne
      simp only [extractResidentItems, migrateResidents, huuid, pyTruthy, hempty,
        Bool.not_false, if_pos, List.map_cons, hr]

/-- Counterexample to claim C10 as stated: normalization IS repeated at
comparison time.  The MIGRATION block embedded from
`_detect_town_changes` (src/cogs/scanner.py lines 422-434) — comparison-time
code — maps the legacy object-form cached value
`[{"uuid": "u1"}]` to the UUID-string list `["u1"]`, a value different from
the raw stored one; consequently a legacy snapshot whose resident is stored
as a full object diffs as unchanged against a current payload with the same
resident, which could not happen if the comparison consumed the stored
representation as-is. -/
theorem comparison_renormalizes_residents_cex :
    migrateResidents [Json.obj [("uuid", Json.str "u1")]] = ["u1"] ∧
    [Json.obj [("uuid", Json.str "u1")]] ≠ [Json.str "u1"] ∧
    detect_town_changes
        (some
          { uuid := some (.str "t1"), name := none, nation_uuid := none,
            mayor_uuid := none, board := .str "",
            residents := .arr [Json.obj [("uuid", Json.str "u1")]],
            is_public := none, is_open := none, is_overclaimed := none,
            is_for_sale := none, has_overclaim_shield := none,
            num_town_blocks := none, num_residents := none, balance := none })
        [("residents", Json.arr [Json.obj [("uuid", Json.str "u1")]])] [] [] =
      .ok emptyChanges := by
  refine ⟨rfl, by simp, ?_⟩
  simp only [detect_town_changes, detect_milestone_dyn, List.mergeSort_nil]
  rfl

/-- Claim C10 as amended: the snapshot written back stores resident
membership normalized to UUID strings regardless of whether the upstream
payload expressed residents as bare identifier strings or as
identifier-bearing objects — but the normalization is not performed only at
ingestion: the comparison path re-normalizes the cached side as well (to
migrate legacy snapshots), and that re-normalization is the identity on
ingestion-normalized snapshots, so diffing is insensitive to which form was
stored. -/
theorem residents_normalized_at_ingestion_and_comparison :
    (∀ (town_data : List (String × Json)) (row : TownCacheRow) (items : List Json),
        prepare_town_for_cache town_data = .ok row →
        dictGetD town_data "residents" (.arr []) = .arr items →
        (∀ item ∈ items,
          (∃ s : String, item = .str s) ∨
          (∃ fields s, item = .obj fields ∧ dictGet fields "uuid" = some (.str s) ∧ s ≠ "")) →
        row.residents = .arr ((migrateResidents items).map Json.str)) ∧
    (∀ uuids : List String, migrateResidents (uuids.map Json.str) = uuids) ∧
    (∀ (row : TownCacheRow) (items : List Json) (current : List (String × Json))
        (popThresholds balThresholds : List Int),
        row.residents = .arr items →
        detect_town_changes (some row) current popThresholds balThresholds =
          detect_town_changes
            (some { row with residents := .arr ((migrateResidents items).map Json.str) })
            current popThresholds balThresholds) := by
  refine ⟨?_, migrateResidents_map_str, ?_⟩
  · intro town_data row items hprep hres hwf
    unfold prepare_town_for_cache at hprep
    split at hprep
    · split at hprep
      · injection hprep with h
        rw [← h]
        dsimp only
        rw [hres]
        dsimp only [extractResidentUuids]
        rw [extract_eq_map_migrate items hwf]
      · exact absurd hprep (by simp)
    · exact absurd hprep (by simp)
  · intro row items current popThresholds balThresholds h
    have hcr :
        keepTruthy (migrateResidents (cachedResidentsList row.residents)) =
          keepTruthy (migrateResidents (cachedResidentsList
            (TownCacheRow.residents
              { row with residents := .arr ((migrateResidents items).map Json.str) }))) := by
      rw [h]
      dsimp only [cachedResidentsList]
      rw [migrateResidents_map_str]
    unfold detect_town_changes
    dsimp only
    rw [hcr]

/-- Witness for the amended C10: a payload whose residents mix an
identifier-bearing object and a bare identifier string is stored as the
plain UUID-string list `["u1", "u2"]`. -/
theorem residents_normalized_at_ingestion_and_comparison_witness :
    TownCacheRow.residents
      { uuid := none, name := none, nation_uuid := none, mayor_uuid := none,
        board := .str "", residents := .arr [.str "u1", .str "u2"], is_public := none,
        is_open := none, is_overclaimed := none, is_for_sale := none,
        has_overclaim_shield := none, num_town_blocks := none, num_residents := none,
        balance := none } =
      .arr ((migrateResidents [Json.obj [("uuid", Json.str "u1")], Json.str "u2"]).map
        Json.str) :=
  residents_normalized_at_ingestion_and_comparison.1
    [("residents", Json.arr [Json.obj [("uuid", Json.str "u1")], Json.str "u2"])]
    _ [Json.obj [("uuid", Json.str "u1")], Json.str "u2"] (by rfl) (by rfl)
    (by
      intro item hi
      simp only [List.mem_cons, List.not_mem_nil, or_false] at hi
      rcases hi with rfl | rfl
      · exact Or.inr ⟨[("uuid", Json.str "u1")], "u1", rfl, rfl, by decide⟩
      · exact Or.inl ⟨"u2", rfl⟩)

end Discadian
